import Mathlib

/-!
Verification of the switchboard tunnel wire protocol and its
challenge-response authentication handshake.

The Lean definitions below are a shallow embedding of the Go sources:

* Frame codec: internal/protocol/types.go (encodeFrameTo, decodeFrameFrom).
  The byte stream is a List Nat of byte values; reading from an io.Reader
  is modelled as consuming a prefix of the list, and an io.ReadFull that
  runs out of input is the ioShort error.
* Connection send/receive: internal/protocol/conn.go (Conn.Send,
  Conn.sendWithFragmentation, Conn.ReadNext, Conn.readFrame).
  A context (cancellation token) is modelled by the one bit the error
  paths consult: whether the context is already done at the instant an
  I/O operation fails (ctxDone).  Send's write path is modelled against a
  writer with a byte capacity so that write errors are expressible.
* Server handshake proof-checking: internal/auth (WaitForAgentAuthentication,
  failAuth), with the external crypto primitives (base64 decoding result,
  Ed25519 verification result) abstracted as boolean inputs, and SHA-256
  (crypto/sha256, external to the repo) implemented concretely per FIPS 180-4
  so that agentIDFromPublicKey is executable.
-/

namespace Switchboard

/-- Error kinds of the protocol package.  Go represents these as sentinel
errors (types.go / part_000) joined with ErrProtocol; here each sentinel is
a constructor, and ioShort / ioWrite stand for transport I/O errors
(io.ReadFull shortfall, net write error) which are not protocol errors.
ctxCanceled stands for ctx.Err(). -/
inductive Err
  | ioShort
  | ioWrite
  | badMagic
  | badVersion
  | unknownType
  | invalidFlags
  | frameTooLarge
  | fragmentation
  | envelope
  | invalidStreamID
  | pingPongShape
  | formatUnsupported
  | kindUnsupported
  | maxTooSmallForEnvelope
  | ctxCanceled
deriving DecidableEq, Repr

/-- Mirrors isProtocolErr in conn.go: every sentinel produced with
ErrProtocol (directly or via fmt.Errorf("%w: ...")) is a protocol error;
transport I/O errors and the context error are not. -/
def isProtocolErr : Err → Bool
  | .ioShort => false
  | .ioWrite => false
  | .ctxCanceled => false
  | _ => true

/-- Frame type constants from types.go. -/
def TypeAuthBegin : Nat := 0x01
def TypeAuthChallenge : Nat := 0x02
def TypeAuthProof : Nat := 0x03
def TypeAuthOK : Nat := 0x04
def TypeAuthError : Nat := 0x05
def TypeMessagePayload : Nat := 0x10
def TypePing : Nat := 0xFE
def TypePong : Nat := 0xFF

/-- Flag bits (types.go): START = 0x0001, END = 0x0002. -/
def flagStart : Nat := 1
def flagEnd : Nat := 2
def startEndFlags : Nat := 3

/-- Mirrors isKnownType in types.go. -/
def isKnownType (t : Nat) : Bool :=
  t == TypeAuthBegin || t == TypeAuthChallenge || t == TypeAuthProof ||
  t == TypeAuthOK || t == TypeAuthError || t == TypeMessagePayload ||
  t == TypePing || t == TypePong

/-- Logical message, mirroring protocol.Message.  Fields default to the Go
zero values. -/
structure Message where
  type : Nat
  streamID : Nat
  payload : List Nat := []
  kind : Nat := 0
  format : Nat := 0
  data : List Nat := []
deriving DecidableEq, Repr

/-- Wire frame, mirroring the frame struct in types.go (payloadLn is the
payload length and is kept implicit). -/
structure Frame where
  typ : Nat
  flags : Nat
  streamID : Nat
  payload : List Nat
deriving DecidableEq, Repr

/-- Big-endian bytes of a 16-bit value, as written by
binary.BigEndian.PutUint16 (the two bytes are value >> 8 and value,
each truncated to a byte). -/
def be2 (v : Nat) : List Nat := [v / 2 ^ 8 % 256, v % 256]

/-- Big-endian bytes of a 32-bit value (binary.BigEndian.PutUint32). -/
def be4 (v : Nat) : List Nat :=
  [v / 2 ^ 24 % 256, v / 2 ^ 16 % 256, v / 2 ^ 8 % 256, v % 256]

/-- Big-endian bytes of a 64-bit value (binary.BigEndian.PutUint64). -/
def be8 (v : Nat) : List Nat :=
  [v / 2 ^ 56 % 256, v / 2 ^ 48 % 256, v / 2 ^ 40 % 256, v / 2 ^ 32 % 256,
   v / 2 ^ 24 % 256, v / 2 ^ 16 % 256, v / 2 ^ 8 % 256, v % 256]

/-- Bytes written by encodeFrameTo (types.go): the 18-byte header
(magic 'S' 'B', version 1, type, flags, stream id, payload length as a
uint32) followed by the payload.  Go writes uint32(len(payload)); the
truncation modulo 2^32 is inherent in be4. -/
def encodeFrame (f : Frame) : List Nat :=
  [0x53, 0x42, 0x01, f.typ] ++ be2 f.flags ++ be8 f.streamID ++
    be4 f.payload.length ++ f.payload

/-- Mirrors decodeFrameFrom (types.go) on a byte-list stream.  The 18-byte
header is read first (ioShort if the stream is shorter); the checks run in
the source's order: magic, version, type, flags, size.  The size check
compares against uint32(maxPayload), i.e. max modulo 2^32.  A shortfall
while reading the payload is the underlying I/O error (ioShort), unchanged. -/
def decodeFrameFrom (max : Nat) (input : List Nat) : Except Err (Frame × List Nat) :=
  if input.length < 18 then .error .ioShort
  else
    let b : Nat → Nat := fun i => input.getD i 0
    if b 0 ≠ 0x53 ∨ b 1 ≠ 0x42 then .error .badMagic
    else if b 2 ≠ 0x01 then .error .badVersion
    else if ¬ isKnownType (b 3) then .error .unknownType
    else
      let flags := b 4 * 256 + b 5
      if flags &&& 0xFFFC ≠ 0 then .error .invalidFlags
      else
        let payloadLn := ((b 14 * 256 + b 15) * 256 + b 16) * 256 + b 17
        if payloadLn > max % 2 ^ 32 then .error .frameTooLarge
        else
          let rest := input.drop 18
          if rest.length < payloadLn then .error .ioShort
          else
            let streamID :=
              ((((((b 6 * 256 + b 7) * 256 + b 8) * 256 + b 9) * 256 + b 10) * 256
                  + b 11) * 256 + b 12) * 256 + b 13
            .ok (⟨b 3, flags, streamID, rest.take payloadLn⟩, rest.drop payloadLn)

/-- Decoding consumes at least the 18-byte header, so the remaining stream
is strictly shorter.  Used for termination of the reassembly loop. -/
theorem decodeFrameFrom_length_lt {max : Nat} {input rest : List Nat} {fr : Frame}
    (h : decodeFrameFrom max input = .ok (fr, rest)) : rest.length < input.length := by
  unfold decodeFrameFrom at h
  split at h
  · exact absurd h (by simp)
  · next hlen =>
    simp only at h
    split at h
    · exact absurd h (by simp)
    · split at h
      · exact absurd h (by simp)
      · split at h
        · exact absurd h (by simp)
        · split at h
          · exact absurd h (by simp)
          · split at h
            · exact absurd h (by simp)
            · split at h
              · exact absurd h (by simp)
              · simp only [Except.ok.injEq, Prod.mk.injEq] at h
                have hr : rest = (input.drop 18).drop
                    (((input.getD 14 0 * 256 + input.getD 15 0) * 256 + input.getD 16 0) * 256
                      + input.getD 17 0) := h.2.symm
                subst hr
                simp only [List.length_drop]
                omega

/-- Mirrors Conn.readFrame (conn.go): on a decode failure, if the context is
already done the context's error is returned and the connection is left
open; otherwise protocol-class errors close the connection best-effort and
the error is returned unchanged.  The Bool paired with the error records
whether the connection was closed. -/
def readFrame (ctxDone : Bool) (max : Nat) (input : List Nat) :
    Except (Err × Bool) (Frame × List Nat) :=
  match decodeFrameFrom max input with
  | .ok r => .ok r
  | .error e =>
    if ctxDone then .error (.ctxCanceled, false)
    else .error (e, isProtocolErr e)

theorem readFrame_length_lt {ctxDone : Bool} {max : Nat} {input rest : List Nat} {fr : Frame}
    (h : readFrame ctxDone max input = .ok (fr, rest)) : rest.length < input.length := by
  unfold readFrame at h
  split at h
  · next heq => exact decodeFrameFrom_length_lt (by rw [heq]; exact congrArg _ (by injection h))
  · split at h <;> exact absurd h (by simp)

/-- Reassembly loop of Conn.ReadNext (conn.go): while the last observed
frame did not carry END, read the next frame; require the opener's type and
stream id, START clear, and flags in {0, END}; any violation closes the
connection and fails with the fragmentation error.  Payload bytes are
appended in arrival order.  (Go spells this loop out twice, once for
message_payload data and once for generic payloads; the two copies perform
the same checks and concatenation.) -/
def readContinuations (ctxDone : Bool) (max typ streamID : Nat) (acc : List Nat)
    (input : List Nat) (isDone : Bool) : Except (Err × Bool) (List Nat × List Nat) :=
  if isDone then .ok (acc, input)
  else
    match h : readFrame ctxDone max input with
    | .error eb => .error eb
    | .ok (next, rest) =>
      if next.typ ≠ typ ∨ next.streamID ≠ streamID then .error (.fragmentation, true)
      else if next.flags &&& flagStart ≠ 0 then .error (.fragmentation, true)
      else if next.flags ≠ 0 ∧ next.flags ≠ flagEnd then .error (.fragmentation, true)
      else readContinuations ctxDone max typ streamID (acc ++ next.payload) rest
        (next.flags &&& flagEnd ≠ 0)
termination_by input.length
decreasing_by exact readFrame_length_lt h

/-- Result of Conn.ReadNext: either a reassembled message together with the
unconsumed remainder of the stream, or an error together with whether the
connection was closed before surfacing it. -/
inductive ReadOutcome
  | ok (msg : Message) (rest : List Nat)
  | fail (e : Err) (closed : Bool)
deriving DecidableEq, Repr

/-- Mirrors Conn.ReadNext (conn.go) on a byte-list stream.  ctxDone models
whether the passed context is already done at the instant a frame read
fails. -/
def ReadNext (ctxDone : Bool) (max : Nat) (input : List Nat) : ReadOutcome :=
  match readFrame ctxDone max input with
  | .error (e, closed) => .fail e closed
  | .ok (fr, rest) =>
    if fr.flags &&& flagStart = 0 then .fail .fragmentation true
    else if fr.typ = TypePing ∨ fr.typ = TypePong then
      if fr.streamID ≠ 0 ∨ fr.payload ≠ [] ∨ fr.flags ≠ startEndFlags then
        .fail .pingPongShape true
      else .ok { type := fr.typ, streamID := 0 } rest
    else if (fr.typ = TypeAuthBegin ∨ fr.typ = TypeAuthChallenge ∨ fr.typ = TypeAuthProof ∨
        fr.typ = TypeAuthOK ∨ fr.typ = TypeAuthError) ∧ fr.streamID ≠ 0 then
      .fail .invalidStreamID true
    else if fr.typ = TypeMessagePayload ∧ fr.streamID = 0 then
      .fail .invalidStreamID true
    else
      let isDone := fr.flags &&& flagEnd ≠ 0
      if fr.typ = TypeMessagePayload then
        if fr.payload.length < 4 then .fail .envelope true
        else
          let kind := fr.payload.getD 0 0
          let format := fr.payload.getD 1 0
          let reserved := fr.payload.getD 2 0 * 256 + fr.payload.getD 3 0
          if reserved ≠ 0 then .fail .envelope true
          else if format ≠ 0 then .fail .envelope true
          else if kind ≠ 1 ∧ kind ≠ 2 ∧ kind ≠ 3 then .fail .envelope true
          else
            match readContinuations ctxDone max fr.typ fr.streamID (fr.payload.drop 4)
                rest isDone with
            | .error (e, closed) => .fail e closed
            | .ok (data, rest1) =>
              .ok { type := TypeMessagePayload, streamID := fr.streamID,
                    kind := kind, format := format, data := data } rest1
      else
        match readContinuations ctxDone max fr.typ fr.streamID fr.payload rest isDone with
        | .error (e, closed) => .fail e closed
        | .ok (payload, rest1) =>
          .ok { type := fr.typ, streamID := fr.streamID, payload := payload } rest1

/-- Chunking loop shared by Conn.sendWithFragmentation and the
message_payload continuation loop in Conn.Send (conn.go): split the
remaining bytes into chunks of at most max bytes; the first chunk carries
START when first is true, and the final chunk carries END.  Go never runs
this loop with max = 0 (WithMaxFramePayloadBytes only accepts n > 0); the
max = 0 guard below exists only to make the recursion well-founded. -/
def fragChunks (max : Nat) (first : Bool) (remaining : List Nat) : List (Nat × List Nat) :=
  if h : max = 0 ∨ remaining = [] then []
  else
    ((if first then flagStart else 0) ||| (if remaining.drop max = [] then flagEnd else 0),
      remaining.take max) :: fragChunks max false (remaining.drop max)
termination_by remaining.length
decreasing_by
  simp only [List.length_drop]
  rcases Nat.eq_zero_or_pos max with h0 | h0
  · exact absurd (Or.inl h0) h
  · have : remaining ≠ [] := fun he => h (Or.inr he)
    have : 0 < remaining.length := List.length_pos.mpr this
    omega

/-- Builds frames of one type and stream id from flagged chunks. -/
def mkFrames (typ streamID : Nat) (cs : List (Nat × List Nat)) : List Frame :=
  cs.map fun c => ⟨typ, c.1, streamID, c.2⟩

/-- Mirrors Conn.sendWithFragmentation (conn.go): a payload that fits in
one frame is emitted with START|END; otherwise it is split into chunks of
at most max bytes, first START, middles 0, last END. -/
def sendWithFragmentation (max typ streamID : Nat) (payload : List Nat) : List Frame :=
  if payload.length ≤ max then [⟨typ, startEndFlags, streamID, payload⟩]
  else mkFrames typ streamID (fragChunks max true payload)

/-- Frames emitted by Conn.Send (conn.go) for one logical message, or the
validation error Send returns before writing anything.  All of Send's
validation happens before its first write, so the frame list is determined
by the message and max alone. -/
def sendFrames (max : Nat) (msg : Message) : Except Err (List Frame) :=
  if msg.type = TypePing ∨ msg.type = TypePong then
    if msg.streamID ≠ 0 then .error .invalidStreamID
    else if msg.payload ≠ [] ∨ msg.data ≠ [] then .error .pingPongShape
    else .ok [⟨msg.type, startEndFlags, 0, []⟩]
  else if msg.type = TypeAuthBegin ∨ msg.type = TypeAuthChallenge ∨ msg.type = TypeAuthProof ∨
      msg.type = TypeAuthOK ∨ msg.type = TypeAuthError then
    if msg.streamID ≠ 0 then .error .invalidStreamID
    else .ok (sendWithFragmentation max msg.type 0 msg.payload)
  else if msg.type = TypeMessagePayload then
    if msg.streamID = 0 then .error .invalidStreamID
    else
      -- Go defaults Format 0 to PayloadFormatOpaqueBytes, whose value is 0,
      -- and then rejects any format other than opaque bytes.
      if msg.format ≠ 0 then .error .formatUnsupported
      else if msg.kind ≠ 1 ∧ msg.kind ≠ 2 ∧ msg.kind ≠ 3 then .error .kindUnsupported
      else
        let envelope : List Nat := [msg.kind, msg.format, 0x00, 0x00]
        if envelope.length > max then .error .maxTooSmallForEnvelope
        else
          let firstDataCap := max - envelope.length
          let firstData :=
            if msg.data.length > firstDataCap then msg.data.take firstDataCap else msg.data
          let firstPayload := envelope ++ firstData
          let remaining := msg.data.drop firstData.length
          if remaining = [] then
            .ok [⟨TypeMessagePayload, startEndFlags, msg.streamID, firstPayload⟩]
          else
            .ok (⟨TypeMessagePayload, flagStart, msg.streamID, firstPayload⟩ ::
              mkFrames TypeMessagePayload msg.streamID (fragChunks max false remaining))
  else .error .unknownType

/-- Byte stream produced on the wire by Conn.Send for one message. -/
def sendBytes (max : Nat) (msg : Message) : Except Err (List Nat) :=
  match sendFrames max msg with
  | .error e => .error e
  | .ok fs => .ok (fs.map encodeFrame).flatten

/-- Write of one buffer against a transport writer with cap bytes of
remaining capacity: the write succeeds exactly when it fits, and a failed
write surfaces the transport's write error. -/
def writeChunk (cap n : Nat) : Except Err Nat :=
  if n ≤ cap then .ok (cap - n) else .error .ioWrite

/-- Mirrors encodeFrameTo's I/O shape (types.go): the 18-byte header is
written first, then the payload if non-empty. -/
def encodeFrameToIO (cap : Nat) (f : Frame) : Except Err Nat :=
  match writeChunk cap 18 with
  | .error e => .error e
  | .ok c1 => if f.payload = [] then .ok c1 else writeChunk c1 f.payload.length

/-- Writes a frame sequence, stopping at the first write error. -/
def writeFrames (cap : Nat) : List Frame → Except Err Nat
  | [] => .ok cap
  | f :: fs =>
    match encodeFrameToIO cap f with
    | .error e => .error e
    | .ok c1 => writeFrames c1 fs

/-- Mirrors Conn.Send (conn.go) including its I/O error behaviour, against
a capacity-limited writer.  applyWriteContext only installs deadlines on
the endpoint; Send never consults the context when mapping an error, so
ctxDone does not influence the result (unlike Conn.readFrame). -/
def sendIO (ctxDone : Bool) (cap max : Nat) (msg : Message) : Except Err Nat :=
  match sendFrames max msg with
  | .error e => .error e
  | .ok fs => writeFrames cap fs

/-- Shape invariant of a continuation-chunk list: every chunk fits in max
bytes, non-final chunks carry flags 0, and the final chunk carries END. -/
def contChunksOK (max : Nat) : List (Nat × List Nat) → Prop
  | [] => False
  | [(fl, p)] => fl = flagEnd ∧ p.length ≤ max
  | (fl, p) :: rest => fl = 0 ∧ p.length ≤ max ∧ contChunksOK max rest

/-- Validity of a logical message's fields, as enumerated by the round-trip
claim: ping/pong with stream id 0 and nothing to carry; auth stages with
stream id 0; message_payload with non-zero stream id, a defined kind, and
the opaque-bytes format.  streamID is a uint64 in Go, hence the bound. -/
def validMessage (m : Message) : Prop :=
  m.streamID < 2 ^ 64 ∧
  (((m.type = TypePing ∨ m.type = TypePong) ∧ m.streamID = 0 ∧ m.payload = [] ∧ m.data = []) ∨
   ((m.type = TypeAuthBegin ∨ m.type = TypeAuthChallenge ∨ m.type = TypeAuthProof ∨
       m.type = TypeAuthOK ∨ m.type = TypeAuthError) ∧ m.streamID = 0 ∧ m.data = []) ∨
   (m.type = TypeMessagePayload ∧ m.streamID ≠ 0 ∧
     (m.kind = 1 ∨ m.kind = 2 ∨ m.kind = 3) ∧ m.format = 0 ∧ m.payload = []))

section AuthModel

/-- Fields of the auth_challenge JSON message (part_001). -/
structure AuthChallengeMsg where
  challengeID : String
  nonce : String
  issuedAtMS : Int
  expiresAtMS : Int
deriving DecidableEq, Repr

/-- Fields of the auth_proof JSON message (part_001). -/
structure AuthProofMsg where
  agentID : String
  challengeID : String
  nonce : String
  issuedAtMS : Int
  signature : String
deriving DecidableEq, Repr

/-- Outcome of the server handshake step under scrutiny. -/
inductive HandshakeResult
  | accepted
  | failed (code : String)
deriving DecidableEq, Repr

/-- Observable effects of one server step: the returned result, whether an
auth_error frame was (best-effort) sent and with which code, and whether
the connection was closed. -/
structure ServerStep where
  result : HandshakeResult
  sentAuthError : Option String
  closedConn : Bool
deriving DecidableEq, Repr

/-- Mirrors failAuth (part_002): best-effort send of auth_error with the
code, close the connection, and report the failure with that code. -/
def failAuth (code : String) : ServerStep :=
  { result := .failed code, sentAuthError := some code, closedConn := true }

/-- Challenge minting in WaitForAgentAuthentication (part_002):
issued_at_ms = now_ms() and expires_at_ms = issued_at_ms + challenge_ttl_ms
(the Go source computes int64(challengeTTL/time.Millisecond) = 30000). -/
def mintChallenge (challengeID nonce : String) (issuedAtMS ttlMS : Int) : AuthChallengeMsg :=
  { challengeID := challengeID, nonce := nonce, issuedAtMS := issuedAtMS,
    expiresAtMS := issuedAtMS + ttlMS }

/-- Proof validation of WaitForAgentAuthentication after the challenge has
been sent (part_002, challenge binding / freshness / signature sections).
agentID is the identity validated from auth_begin; nowAtFreshness is the
value of now_ms() at the freshness check; sigDecodeOK stands for a
successful base64url decode into exactly 64 bytes, and sigValid for the
Ed25519 verification result ­— both external crypto primitives. -/
def processProof (agentID : String) (ch : AuthChallengeMsg) (proof : AuthProofMsg)
    (nowAtFreshness : Int) (sigDecodeOK sigValid : Bool) : ServerStep :=
  if proof.agentID ≠ agentID then failAuth "protocol_error"
  else if proof.challengeID ≠ ch.challengeID ∨ proof.nonce ≠ ch.nonce ∨
      proof.issuedAtMS ≠ ch.issuedAtMS then failAuth "replayed_challenge"
  else if nowAtFreshness > ch.expiresAtMS then failAuth "expired_challenge"
  else if ¬ sigDecodeOK then failAuth "bad_signature"
  else if ¬ sigValid then failAuth "bad_signature"
  else { result := .accepted, sentAuthError := none, closedConn := false }

end AuthModel

section Sha256

/-- Reduction modulo 2^32, the word size of SHA-256 arithmetic. -/
def w32 (x : Nat) : Nat := x % 4294967296

/-- Right rotation of a 32-bit word by n bits. -/
def rotr32 (n x : Nat) : Nat := w32 (x / 2 ^ n + x % 2 ^ n * 2 ^ (32 - n))

/-- SHA-256 Ch function. -/
def sha2Ch (x y z : Nat) : Nat := (x &&& y) ^^^ ((x ^^^ 4294967295) &&& z)

/-- SHA-256 Maj function. -/
def sha2Maj (x y z : Nat) : Nat := (x &&& y) ^^^ (x &&& z) ^^^ (y &&& z)

/-- SHA-256 big sigma-0. -/
def bigSigma0 (x : Nat) : Nat := rotr32 2 x ^^^ rotr32 13 x ^^^ rotr32 22 x

/-- SHA-256 big sigma-1. -/
def bigSigma1 (x : Nat) : Nat := rotr32 6 x ^^^ rotr32 11 x ^^^ rotr32 25 x

/-- SHA-256 small sigma-0. -/
def smallSigma0 (x : Nat) : Nat := rotr32 7 x ^^^ rotr32 18 x ^^^ x / 2 ^ 3

/-- SHA-256 small sigma-1. -/
def smallSigma1 (x : Nat) : Nat := rotr32 17 x ^^^ rotr32 19 x ^^^ x / 2 ^ 10

/-- The 64 SHA-256 round constants of FIPS 180-4, written in decimal. -/
def sha2K : List Nat :=
  [1116352408, 1899447441, 3049323471, 3921009573, 961987163,
   1508970993, 2453635748, 2870763221, 3624381080, 310598401,
   607225278, 1426881987, 1925078388, 2162078206, 2614888103,
   3248222580, 3835390401, 4022224774, 264347078, 604807628,
   770255983, 1249150122, 1555081692, 1996064986, 2554220882,
   2821834349, 2952996808, 3210313671, 3336571891, 3584528711,
   113926993, 338241895, 666307205, 773529912, 1294757372,
   1396182291, 1695183700, 1986661051, 2177026350, 2456956037,
   2730485921, 2820302411, 3259730800, 3345764771, 3516065817,
   3600352804, 4094571909, 275423344, 430227734, 506948616,
   659060556, 883997877, 958139571, 1322822218, 1537002063,
   1747873779, 1955562222, 2024104815, 2227730452, 2361852424,
   2428436474, 2756734187, 3204031479, 3329325298]

/-- Working state of the SHA-256 compression function (eight 32-bit words),
mirroring the [8]uint32 digest state of crypto/sha256. -/
structure Sha256State where
  a : Nat
  b : Nat
  c : Nat
  d : Nat
  e : Nat
  f : Nat
  g : Nat
  h : Nat
deriving DecidableEq, Repr

/-- Initial hash value of SHA-256 (the eight words of H0, in decimal). -/
def sha2H0 : Sha256State :=
  ⟨1779033703, 3144134277, 1013904242, 2773480762,
   1359893119, 2600822924, 528734635, 1541459225⟩

/-- Groups a byte list into big-endian 32-bit words. -/
def bytesToWords : List Nat → List Nat
  | b0 :: b1 :: b2 :: b3 :: rest =>
    (((b0 * 256 + b1) * 256 + b2) * 256 + b3) :: bytesToWords rest
  | _ => []

/-- One extension step of the message schedule, appending word t from
words t-2, t-7, t-15 and t-16. -/
def extendStep (w : List Nat) : List Nat :=
  w ++ [w32 (smallSigma1 (w.getD (w.length - 2) 0) + w.getD (w.length - 7) 0 +
    smallSigma0 (w.getD (w.length - 15) 0) + w.getD (w.length - 16) 0)]

/-- The 64-word message schedule of one 64-byte block. -/
def schedule (block : List Nat) : List Nat :=
  (List.range 48).foldl (fun w _ => extendStep w) (bytesToWords block)

/-- One round of the SHA-256 compression function. -/
def compressStep (s : Sha256State) (kt wt : Nat) : Sha256State :=
  let t1 := w32 (s.h + bigSigma1 s.e + sha2Ch s.e s.f s.g + kt + wt)
  let t2 := w32 (bigSigma0 s.a + sha2Maj s.a s.b s.c)
  ⟨w32 (t1 + t2), s.a, s.b, s.c, w32 (s.d + t1), s.e, s.f, s.g⟩

/-- Compression of one 64-byte block into the running hash state. -/
def compressBlock (h0 : Sha256State) (block : List Nat) : Sha256State :=
  let s := ((sha2K.zip (schedule block)).foldl (fun s kw => compressStep s kw.1 kw.2)) h0
  ⟨w32 (h0.a + s.a), w32 (h0.b + s.b), w32 (h0.c + s.c), w32 (h0.d + s.d),
   w32 (h0.e + s.e), w32 (h0.f + s.f), w32 (h0.g + s.g), w32 (h0.h + s.h)⟩

/-- Splits a byte list into 64-byte blocks. -/
def chunks64 (l : List Nat) : List (List Nat) :=
  if h : l = [] then []
  else l.take 64 :: chunks64 (l.drop 64)
termination_by l.length
decreasing_by
  simp only [List.length_drop]
  have : 0 < l.length := List.length_pos.mpr h
  omega

/-- SHA-256 padding: append 0x80, zeros to 56 mod 64, and the 64-bit
big-endian bit length. -/
def sha256Pad (msg : List Nat) : List Nat :=
  msg ++ 0x80 :: List.replicate ((119 - msg.length % 64) % 64) 0 ++ be8 (8 * msg.length)

/-- SHA-256 digest (32 bytes) of a byte list, per FIPS 180-4; this models
crypto/sha256.Sum256, which is external to the repository. -/
def sha256 (msg : List Nat) : List Nat :=
  let hh := (chunks64 (sha256Pad msg)).foldl compressBlock sha2H0
  be4 hh.a ++ be4 hh.b ++ be4 hh.c ++ be4 hh.d ++ be4 hh.e ++ be4 hh.f ++ be4 hh.g ++ be4 hh.h

/-- The lowercase hex digit table of Go encoding/hex (hextable). -/
def hexTable : List Char := "0123456789abcdef".toList

/-- Hex digit for one nibble. -/
def hexDigit (n : Nat) : Char := hexTable.getD n '0'

/-- Mirrors hex.EncodeToString: two lowercase hex digits per byte, high
nibble first. -/
def hexEncode (bs : List Nat) : String :=
  String.mk ((bs.map (fun b => [hexDigit (b / 16), hexDigit (b % 16)])).flatten)

/-- Mirrors agentIDFromPublicKey (types.go auth part): a 32-byte Ed25519
public key hashes to the lowercase hex of its SHA-256; any other length is
an error.  The result is a pure function of the key bytes, hence stable
across runs. -/
def agentIDFromPublicKey (pub : List Nat) : Except String String :=
  if pub.length ≠ 32 then .error ("invalid public key length " ++ toString pub.length)
  else .ok (hexEncode (sha256 pub))

end Sha256

section CodecLemmas

/-- Unfolding of decodeFrameFrom on a stream that starts with a full
18-byte header, with every header field named. -/
theorem decodeFrameFrom_cons (max m0 m1 ver ty f0 f1 s0 s1 s2 s3 s4 s5 s6 s7 l0 l1 l2 l3 : Nat)
    (rest : List Nat) :
    decodeFrameFrom max (m0 :: m1 :: ver :: ty :: f0 :: f1 :: s0 :: s1 :: s2 :: s3 :: s4 :: s5
        :: s6 :: s7 :: l0 :: l1 :: l2 :: l3 :: rest) =
      (if m0 ≠ 0x53 ∨ m1 ≠ 0x42 then .error .badMagic
       else if ver ≠ 0x01 then .error .badVersion
       else if ¬ isKnownType ty then .error .unknownType
       else if (f0 * 256 + f1) &&& 0xFFFC ≠ 0 then .error .invalidFlags
       else if ((l0 * 256 + l1) * 256 + l2) * 256 + l3 > max % 2 ^ 32 then .error .frameTooLarge
       else if rest.length < ((l0 * 256 + l1) * 256 + l2) * 256 + l3 then .error .ioShort
       else .ok (⟨ty, f0 * 256 + f1,
         ((((((s0 * 256 + s1) * 256 + s2) * 256 + s3) * 256 + s4) * 256 + s5) * 256 + s6) * 256
           + s7,
         rest.take (((l0 * 256 + l1) * 256 + l2) * 256 + l3)⟩,
         rest.drop (((l0 * 256 + l1) * 256 + l2) * 256 + l3))) := by
  have hlen : ¬ ((m0 :: m1 :: ver :: ty :: f0 :: f1 :: s0 :: s1 :: s2 :: s3 :: s4 :: s5
      :: s6 :: s7 :: l0 :: l1 :: l2 :: l3 :: rest).length < 18) := by
    simp only [List.length_cons]
    omega
  unfold decodeFrameFrom
  rw [if_neg hlen]
  rfl

/-- Decoding the bytes of a well-formed encoded frame yields the frame back
and consumes exactly its bytes. -/
theorem decode_encodeFrame {max : Nat} {f : Frame} (rest : List Nat)
    (htyp : isKnownType f.typ = true) (hflags : f.flags < 4)
    (hsid : f.streamID < 2 ^ 64) (hlen : f.payload.length ≤ max) (hmax : max < 2 ^ 32) :
    decodeFrameFrom max (encodeFrame f ++ rest) = .ok (f, rest) := by
  obtain ⟨ty, fl, sid, p⟩ := f
  simp only at htyp hflags hsid hlen
  have hfl : fl / 2 ^ 8 % 256 * 256 + fl % 256 = fl := by omega
  have hsd : ((((((sid / 2 ^ 56 % 256 * 256 + sid / 2 ^ 48 % 256) * 256 + sid / 2 ^ 40 % 256)
      * 256 + sid / 2 ^ 32 % 256) * 256 + sid / 2 ^ 24 % 256) * 256 + sid / 2 ^ 16 % 256) * 256
      + sid / 2 ^ 8 % 256) * 256 + sid % 256 = sid := by omega
  have hpl : ((p.length / 2 ^ 24 % 256 * 256 + p.length / 2 ^ 16 % 256) * 256
      + p.length / 2 ^ 8 % 256) * 256 + p.length % 256 = p.length := by omega
  have hand : fl &&& 65532 = 0 := by interval_cases fl <;> decide
  simp only [encodeFrame, be2, be4, be8, List.cons_append, List.nil_append, List.append_assoc]
  rw [decodeFrameFrom_cons, hfl, hsd, hpl]
  rw [if_neg (by decide : ¬ ((83 : Nat) ≠ 83 ∨ (66 : Nat) ≠ 66))]
  rw [if_neg (by decide : ¬ ((1 : Nat) ≠ 1))]
  rw [if_neg (by simp [htyp])]
  rw [if_neg (by simp [hand])]
  rw [if_neg (by rw [Nat.mod_eq_of_lt hmax]; omega)]
  rw [if_neg (by simp only [List.length_append]; omega)]
  rw [List.take_left, List.drop_left]

/-- readFrame succeeds whenever decoding does, for any context state. -/
theorem readFrame_ok {max : Nat} {input : List Nat} {r : Frame × List Nat} (ctxDone : Bool)
    (h : decodeFrameFrom max input = .ok r) : readFrame ctxDone max input = .ok r := by
  unfold readFrame
  rw [h]

end CodecLemmas

section ReassemblyLemmas

theorem mkFrames_cons (t s fl : Nat) (p : List Nat) (cs : List (Nat × List Nat)) :
    mkFrames t s ((fl, p) :: cs) = ⟨t, fl, s, p⟩ :: mkFrames t s cs := rfl

/-- Feeding an encoded continuation-chunk sequence to the reassembly loop
appends exactly the concatenated chunk bytes and stops after the END chunk. -/
theorem readContinuations_spec (max t s : Nat) (cs : List (Nat × List Nat))
    (acc rest : List Nat) (htyp : isKnownType t = true) (hs : s < 2 ^ 64)
    (hmax : max < 2 ^ 32) (hcs : contChunksOK max cs) :
    readContinuations false max t s acc
        (((mkFrames t s cs).map encodeFrame).flatten ++ rest) false =
      .ok (acc ++ (cs.map Prod.snd).flatten, rest) := by
  induction cs generalizing acc with
  | nil => exact absurd hcs (by simp [contChunksOK])
  | cons c cs ih =>
    obtain ⟨fl, p⟩ := c
    cases cs with
    | nil =>
      obtain ⟨hfl, hlp⟩ : fl = flagEnd ∧ p.length ≤ max := hcs
      subst hfl
      have hdec : decodeFrameFrom max (encodeFrame ⟨t, flagEnd, s, p⟩ ++ rest) =
          .ok (⟨t, flagEnd, s, p⟩, rest) :=
        decode_encodeFrame _ htyp (by simp [flagEnd]) hs hlp hmax
      rw [mkFrames_cons]
      simp only [mkFrames, List.map_nil, List.map_cons, List.flatten_cons, List.flatten_nil,
        List.append_nil, List.append_assoc]
      rw [readContinuations]
      simp only [Bool.false_eq_true, if_false]
      split
      · next eb heq =>
        rw [readFrame_ok false hdec] at heq
        exact absurd heq (by simp)
      · next nx rest1 heq =>
        rw [readFrame_ok false hdec] at heq
        simp only [Except.ok.injEq, Prod.mk.injEq] at heq
        obtain ⟨hnx, hrest⟩ := heq
        subst hnx
        subst hrest
        simp [flagStart, flagEnd]
        rw [readContinuations]
        simp
    | cons c2 cs2 =>
      obtain ⟨hfl, hlp, hcs2⟩ : fl = 0 ∧ p.length ≤ max ∧ contChunksOK max (c2 :: cs2) := hcs
      subst hfl
      have hdec : decodeFrameFrom max
          (encodeFrame ⟨t, 0, s, p⟩ ++
            (((mkFrames t s (c2 :: cs2)).map encodeFrame).flatten ++ rest)) =
          .ok (⟨t, 0, s, p⟩, ((mkFrames t s (c2 :: cs2)).map encodeFrame).flatten ++ rest) :=
        decode_encodeFrame _ htyp (by simp) hs hlp hmax
      rw [mkFrames_cons, List.map_cons, List.flatten_cons, List.append_assoc]
      rw [readContinuations]
      simp only [Bool.false_eq_true, if_false]
      split
      · next eb heq =>
        rw [readFrame_ok false hdec] at heq
        exact absurd heq (by simp)
      · next nx rest1 heq =>
        rw [readFrame_ok false hdec] at heq
        simp only [Except.ok.injEq, Prod.mk.injEq] at heq
        obtain ⟨hnx, hrest⟩ := heq
        subst hnx
        subst hrest
        simp only [flagStart, flagEnd]
        norm_num
        rw [ih (acc ++ p) hcs2]
        simp [List.append_assoc]

/-- Chunking with first = false produces a well-shaped continuation list
whose chunks concatenate back to the input. -/
theorem fragChunks_false_spec (max : Nat) (hm : 0 < max) :
    ∀ (p : List Nat), p ≠ [] →
      contChunksOK max (fragChunks max false p) ∧
      ((fragChunks max false p).map Prod.snd).flatten = p := by
  suffices h : ∀ (n : Nat) (p : List Nat), p.length = n → p ≠ [] →
      contChunksOK max (fragChunks max false p) ∧
      ((fragChunks max false p).map Prod.snd).flatten = p by
    exact fun p hp => h p.length p rfl hp
  intro n
  induction n using Nat.strong_induction_on with
  | _ n ih =>
  intro p hn hp
  rw [fragChunks, dif_neg (by push_neg; exact ⟨by omega, hp⟩)]
  by_cases hle : p.length ≤ max
  · have hdrop : p.drop max = [] := List.drop_eq_nil_of_le hle
    have htake : p.take max = p := List.take_of_length_le hle
    rw [hdrop, htake]
    rw [fragChunks, dif_pos (Or.inr rfl)]
    refine ⟨⟨?_, hle⟩, by simp⟩
    simp [flagEnd]
  · have hdne : p.drop max ≠ [] := by
      have h0 : 0 < (p.drop max).length := by simp only [List.length_drop]; omega
      exact List.ne_nil_of_length_pos h0
    have hlt : (p.drop max).length < n := by simp only [List.length_drop]; omega
    obtain ⟨ihOK, ihJoin⟩ := ih (p.drop max).length hlt (p.drop max) rfl hdne
    have hflags : ((if false then flagStart else 0) ||| (if p.drop max = [] then flagEnd else 0))
        = 0 := by simp [hdne]
    rw [hflags]
    cases hcs : fragChunks max false (p.drop max) with
    | nil => rw [hcs] at ihOK; exact absurd ihOK (by simp [contChunksOK])
    | cons c2 cs2 =>
      rw [hcs] at ihOK ihJoin
      refine ⟨⟨rfl, ?_, ihOK⟩, ?_⟩
      · simp [List.length_take]
      · simp only [List.map_cons, List.flatten_cons] at ihJoin ⊢
        rw [ihJoin, List.take_append_drop]

/-- Chunking with first = true on an input longer than max emits a START
chunk of max bytes followed by the continuation chunks of the remainder. -/
theorem fragChunks_true_multi (max : Nat) (hm : 0 < max) (p : List Nat) (hgt : max < p.length) :
    fragChunks max true p = (flagStart, p.take max) :: fragChunks max false (p.drop max) ∧
    p.drop max ≠ [] := by
  have hdne : p.drop max ≠ [] := by
    have h0 : 0 < (p.drop max).length := by simp only [List.length_drop]; omega
    exact List.ne_nil_of_length_pos h0
  have hpne : p ≠ [] := by
    intro he
    rw [he] at hgt
    exact absurd hgt (by simp)
  constructor
  · rw [fragChunks, dif_neg (by push_neg; exact ⟨by omega, hpne⟩)]
    simp [hdne, flagStart]
  · exact hdne

end ReassemblyLemmas

section ReadNextFrontLemmas

/-- Receiving one encoded ping or pong frame. -/
theorem readNext_pingpong (t max : Nat) (rest : List Nat)
    (ht : t = TypePing ∨ t = TypePong) (hmax : max < 2 ^ 32) :
    ReadNext false max (encodeFrame ⟨t, startEndFlags, 0, []⟩ ++ rest) =
      .ok { type := t, streamID := 0 } rest := by
  have htk : isKnownType t = true := by
    rcases ht with h | h <;> subst h <;> decide
  have hdec := decode_encodeFrame (f := ⟨t, startEndFlags, 0, []⟩) rest htk
    (by simp [startEndFlags]) (by simp) (by simp) hmax
  unfold ReadNext
  rw [readFrame_ok false hdec]
  rcases ht with h | h <;> subst h <;>
    simp [startEndFlags, flagStart, TypePing, TypePong]

/-- Receiving one single-frame auth-stage message. -/
theorem readNext_auth_single (t max : Nat) (p rest : List Nat)
    (ht : t = TypeAuthBegin ∨ t = TypeAuthChallenge ∨ t = TypeAuthProof ∨ t = TypeAuthOK ∨
      t = TypeAuthError)
    (hlen : p.length ≤ max) (hmax : max < 2 ^ 32) :
    ReadNext false max (encodeFrame ⟨t, startEndFlags, 0, p⟩ ++ rest) =
      .ok { type := t, streamID := 0, payload := p } rest := by
  have htk : isKnownType t = true := by
    rcases ht with h | h | h | h | h <;> subst h <;> decide
  have hdec := decode_encodeFrame (f := ⟨t, startEndFlags, 0, p⟩) rest htk
    (by simp [startEndFlags]) (by simp) (by simpa using hlen) hmax
  unfold ReadNext
  rw [readFrame_ok false hdec]
  rcases ht with h | h | h | h | h <;> subst h <;>
    (simp [startEndFlags, flagStart, flagEnd, TypePing, TypePong, TypeAuthBegin,
      TypeAuthChallenge, TypeAuthProof, TypeAuthOK, TypeAuthError, TypeMessagePayload]
     <;> rw [readContinuations] <;> simp)

/-- Receiving a fragmented auth-stage message produced by the generic
fragmentation path. -/
theorem readNext_auth_multi (t max : Nat) (p rest : List Nat)
    (ht : t = TypeAuthBegin ∨ t = TypeAuthChallenge ∨ t = TypeAuthProof ∨ t = TypeAuthOK ∨
      t = TypeAuthError)
    (hgt : max < p.length) (hm : 0 < max) (hmax : max < 2 ^ 32) :
    ReadNext false max
        (((mkFrames t 0 (fragChunks max true p)).map encodeFrame).flatten ++ rest) =
      .ok { type := t, streamID := 0, payload := p } rest := by
  have htk : isKnownType t = true := by
    rcases ht with h | h | h | h | h <;> subst h <;> decide
  have hnp : ¬ (t = TypePing ∨ t = TypePong) := by
    rcases ht with h | h | h | h | h <;> subst h <;> decide
  have hnmp : t ≠ TypeMessagePayload := by
    rcases ht with h | h | h | h | h <;> subst h <;> decide
  obtain ⟨hsplit, hdne⟩ := fragChunks_true_multi max hm p hgt
  obtain ⟨hOK, hJoin⟩ := fragChunks_false_spec max hm (p.drop max) hdne
  rw [hsplit, mkFrames_cons, List.map_cons, List.flatten_cons, List.append_assoc]
  have hdec := decode_encodeFrame (f := ⟨t, flagStart, 0, p.take max⟩)
    (((mkFrames t 0 (fragChunks max false (p.drop max))).map encodeFrame).flatten ++ rest) htk
    (by simp [flagStart]) (by simp) (by simp [List.length_take]) hmax
  unfold ReadNext
  rw [readFrame_ok false hdec]
  have hloop := readContinuations_spec max t 0 (fragChunks max false (p.drop max))
    (p.take max) rest htk (by simp) hmax hOK
  rw [hJoin, List.take_append_drop] at hloop
  simp [flagStart, flagEnd, hnp, hnmp, hloop]

/-- Receiving one single-frame message_payload message (envelope plus all
data in one frame). -/
theorem readNext_payload_single (max sid k : Nat) (d rest : List Nat)
    (hsid : sid ≠ 0) (hs64 : sid < 2 ^ 64) (hk : k = 1 ∨ k = 2 ∨ k = 3)
    (hlen : 4 + d.length ≤ max) (hmax : max < 2 ^ 32) :
    ReadNext false max
        (encodeFrame ⟨TypeMessagePayload, startEndFlags, sid, [k, 0, 0, 0] ++ d⟩ ++ rest) =
      .ok { type := TypeMessagePayload, streamID := sid, kind := k, format := 0, data := d }
        rest := by
  have hknown : isKnownType TypeMessagePayload = true := by decide
  have hdec := decode_encodeFrame (f := ⟨TypeMessagePayload, startEndFlags, sid, [k, 0, 0, 0] ++ d⟩)
    rest (by simpa using hknown) (by simp [startEndFlags]) (by simpa using hs64)
    (by simp only [List.length_append, List.length_cons, List.length_nil]; omega) hmax
  unfold ReadNext
  rw [readFrame_ok false hdec]
  have hne : ¬ (TypeMessagePayload = TypePing ∨ TypeMessagePayload = TypePong) := by decide
  have hna : ¬ (TypeMessagePayload = TypeAuthBegin ∨ TypeMessagePayload = TypeAuthChallenge ∨
      TypeMessagePayload = TypeAuthProof ∨ TypeMessagePayload = TypeAuthOK ∨
      TypeMessagePayload = TypeAuthError) := by decide
  have hg0 : (([k, 0, 0, 0] ++ d) : List Nat).getD 0 0 = k := rfl
  have hg1 : (([k, 0, 0, 0] ++ d) : List Nat).getD 1 0 = 0 := rfl
  have hg2 : (([k, 0, 0, 0] ++ d) : List Nat).getD 2 0 = 0 := rfl
  have hg3 : (([k, 0, 0, 0] ++ d) : List Nat).getD 3 0 = 0 := rfl
  have hd4 : (([k, 0, 0, 0] ++ d) : List Nat).drop 4 = d := rfl
  have hkk : ¬ (k ≠ 1 ∧ k ≠ 2 ∧ k ≠ 3) := by
    rcases hk with h | h | h <;> subst h <;> decide
  have hlen2 : ¬ (([k, 0, 0, 0] ++ d) : List Nat).length < 4 := by
    simp only [List.length_append, List.length_cons, List.length_nil]
    omega
  simp [startEndFlags, flagStart, flagEnd, hne, hna, hsid, hg0, hg1, hg2, hg3, hd4, hkk, hlen2]
  rw [readContinuations]
  simp

/-- Receiving a fragmented message_payload message: an opening frame with
the envelope and the first data chunk, followed by continuation chunks. -/
theorem readNext_payload_multi (max sid k : Nat) (first rem rest : List Nat)
    (hsid : sid ≠ 0) (hs64 : sid < 2 ^ 64) (hk : k = 1 ∨ k = 2 ∨ k = 3)
    (hflen : 4 + first.length ≤ max) (hrem : rem ≠ []) (hm : 0 < max) (hmax : max < 2 ^ 32) :
    ReadNext false max
        (encodeFrame ⟨TypeMessagePayload, flagStart, sid, [k, 0, 0, 0] ++ first⟩ ++
          (((mkFrames TypeMessagePayload sid (fragChunks max false rem)).map
            encodeFrame).flatten ++ rest)) =
      .ok { type := TypeMessagePayload, streamID := sid, kind := k, format := 0,
            data := first ++ rem } rest := by
  have hknown : isKnownType TypeMessagePayload = true := by decide
  obtain ⟨hOK, hJoin⟩ := fragChunks_false_spec max hm rem hrem
  have hdec := decode_encodeFrame
    (f := ⟨TypeMessagePayload, flagStart, sid, [k, 0, 0, 0] ++ first⟩)
    (((mkFrames TypeMessagePayload sid (fragChunks max false rem)).map encodeFrame).flatten
      ++ rest)
    (by simpa using hknown) (by simp [flagStart]) (by simpa using hs64)
    (by simp only [List.length_append, List.length_cons, List.length_nil]; omega) hmax
  unfold ReadNext
  rw [readFrame_ok false hdec]
  have hne : ¬ (TypeMessagePayload = TypePing ∨ TypeMessagePayload = TypePong) := by decide
  have hna : ¬ (TypeMessagePayload = TypeAuthBegin ∨ TypeMessagePayload = TypeAuthChallenge ∨
      TypeMessagePayload = TypeAuthProof ∨ TypeMessagePayload = TypeAuthOK ∨
      TypeMessagePayload = TypeAuthError) := by decide
  have hg0 : (([k, 0, 0, 0] ++ first) : List Nat).getD 0 0 = k := rfl
  have hg1 : (([k, 0, 0, 0] ++ first) : List Nat).getD 1 0 = 0 := rfl
  have hg2 : (([k, 0, 0, 0] ++ first) : List Nat).getD 2 0 = 0 := rfl
  have hg3 : (([k, 0, 0, 0] ++ first) : List Nat).getD 3 0 = 0 := rfl
  have hd4 : (([k, 0, 0, 0] ++ first) : List Nat).drop 4 = first := rfl
  have hkk : ¬ (k ≠ 1 ∧ k ≠ 2 ∧ k ≠ 3) := by
    rcases hk with h | h | h <;> subst h <;> decide
  have hlen2 : ¬ (([k, 0, 0, 0] ++ first) : List Nat).length < 4 := by
    simp only [List.length_append, List.length_cons, List.length_nil]
    omega
  have hloop := readContinuations_spec max TypeMessagePayload sid (fragChunks max false rem)
    first rest hknown hs64 hmax hOK
  rw [hJoin] at hloop
  simp [flagStart, flagEnd, hne, hna, hsid, hg0, hg1, hg2, hg3, hd4, hkk, hlen2, hloop]

end ReadNextFrontLemmas

section Claim1

/-- C1 (amended): for every logical message with valid fields and every
configured maximum frame payload with 5 ≤ max < 2^32, feeding the bytes
emitted by Send to ReadNext on a connection with the same maximum yields a
message equal to the original: same type, same stream id, byte-exact
payload and data, and for payload messages identical kind and format.  The
upper bound max < 2^32 is forced by the uint32 truncation in the decoder's
size check (decodeFrameFrom compares against uint32(maxPayload)); see the
counterexample below. -/
theorem C1_roundtrip (m : Message) (max : Nat) (rest : List Nat) (hv : validMessage m)
    (h5 : 5 ≤ max) (h32 : max < 2 ^ 32) :
    ∃ out, sendBytes max m = .ok out ∧
      ∃ m2, ReadNext false max (out ++ rest) = .ok m2 rest ∧
        m2.type = m.type ∧ m2.streamID = m.streamID ∧ m2.payload = m.payload ∧
        m2.data = m.data ∧
        (m.type = TypeMessagePayload → m2.kind = m.kind ∧ m2.format = m.format) := by
  obtain ⟨hs64, hcase⟩ := hv
  rcases hcase with ⟨ht, hs0, hp, hd⟩ | ⟨ht, hs0, hd⟩ | ⟨ht, hsne, hk, hfm, hp⟩
  · -- ping / pong
    refine ⟨encodeFrame ⟨m.type, startEndFlags, 0, []⟩, ?_, ?_⟩
    · rcases ht with h | h <;>
        simp [sendBytes, sendFrames, h, hs0, hp, hd, TypePing, TypePong]
    · refine ⟨{ type := m.type, streamID := 0 },
        readNext_pingpong m.type max rest ht h32, rfl, by rw [hs0], by rw [hp], by rw [hd], ?_⟩
      intro hmp
      rcases ht with h | h <;> rw [h] at hmp <;> exact absurd hmp (by decide)
  · -- auth stages
    by_cases hle : m.payload.length ≤ max
    · refine ⟨encodeFrame ⟨m.type, startEndFlags, 0, m.payload⟩, ?_, ?_⟩
      · rcases ht with h | h | h | h | h <;>
          simp [sendBytes, sendFrames, sendWithFragmentation, h, hs0, hle, TypePing, TypePong,
            TypeAuthBegin, TypeAuthChallenge, TypeAuthProof, TypeAuthOK, TypeAuthError,
            startEndFlags]
      · refine ⟨{ type := m.type, streamID := 0, payload := m.payload },
          readNext_auth_single m.type max m.payload rest ht hle h32,
          rfl, by rw [hs0], rfl, by rw [hd], ?_⟩
        intro hmp
        rcases ht with h | h | h | h | h <;> rw [h] at hmp <;> exact absurd hmp (by decide)
    · have hgt : max < m.payload.length := by omega
      have hm : 0 < max := by omega
      refine ⟨((mkFrames m.type 0 (fragChunks max true m.payload)).map encodeFrame).flatten,
        ?_, ?_⟩
      · rcases ht with h | h | h | h | h <;>
          simp [sendBytes, sendFrames, sendWithFragmentation, h, hs0, hle, TypePing, TypePong,
            TypeAuthBegin, TypeAuthChallenge, TypeAuthProof, TypeAuthOK, TypeAuthError]
      · refine ⟨{ type := m.type, streamID := 0, payload := m.payload },
          readNext_auth_multi m.type max m.payload rest ht hgt hm h32,
          rfl, by rw [hs0], rfl, by rw [hd], ?_⟩
        intro hmp
        rcases ht with h | h | h | h | h <;> rw [h] at hmp <;> exact absurd hmp (by decide)
  · -- message_payload
    have hkk : ¬ (m.kind ≠ 1 ∧ m.kind ≠ 2 ∧ m.kind ≠ 3) := by
      rcases hk with h | h | h <;> simp [h]
    have hm4 : ¬ (max < 4) := by omega
    by_cases hdle : m.data.length ≤ max - 4
    · have hngt : ¬ (m.data.length > max - 4) := by omega
      have hlen : 4 + m.data.length ≤ max := by omega
      refine ⟨encodeFrame ⟨TypeMessagePayload, startEndFlags, m.streamID,
        [m.kind, 0, 0, 0] ++ m.data⟩, ?_, ?_⟩
      · simp [sendBytes, sendFrames, ht, hsne, hfm, hkk, hm4, hngt, List.drop_length,
          TypePing, TypePong, TypeAuthBegin, TypeAuthChallenge, TypeAuthProof, TypeAuthOK,
          TypeAuthError, TypeMessagePayload, startEndFlags]
      · refine ⟨⟨TypeMessagePayload, m.streamID, [], m.kind, 0, m.data⟩,
          readNext_payload_single max m.streamID m.kind m.data rest hsne hs64 hk hlen h32,
          ht.symm, rfl, by rw [hp], rfl, ?_⟩
        intro hmp
        exact ⟨rfl, hfm.symm⟩
    · have hdgt : m.data.length > max - 4 := by omega
      have hlen_take : (m.data.take (max - 4)).length = max - 4 := by
        simp [List.length_take]
        omega
      have hrem : m.data.drop (max - 4) ≠ [] := by
        have h0 : 0 < (m.data.drop (max - 4)).length := by
          simp only [List.length_drop]
          omega
        exact List.ne_nil_of_length_pos h0
      have hflen : 4 + (m.data.take (max - 4)).length ≤ max := by omega
      have hm : 0 < max := by omega
      refine ⟨encodeFrame ⟨TypeMessagePayload, flagStart, m.streamID,
          [m.kind, 0, 0, 0] ++ m.data.take (max - 4)⟩ ++
          ((mkFrames TypeMessagePayload m.streamID
            (fragChunks max false (m.data.drop (max - 4)))).map encodeFrame).flatten,
        ?_, ?_⟩
      · simp [sendBytes, sendFrames, ht, hsne, hfm, hkk, hm4, hdgt, hlen_take, hrem,
          TypePing, TypePong, TypeAuthBegin, TypeAuthChallenge, TypeAuthProof, TypeAuthOK,
          TypeAuthError, TypeMessagePayload, flagStart]
      · have hread := readNext_payload_multi max m.streamID m.kind (m.data.take (max - 4))
          (m.data.drop (max - 4)) rest hsne hs64 hk hflen hrem hm h32
        rw [List.take_append_drop] at hread
        refine ⟨⟨TypeMessagePayload, m.streamID, [], m.kind, 0, m.data⟩, ?_,
          ht.symm, rfl, by rw [hp], rfl, ?_⟩
        · rw [List.append_assoc]
          exact hread
        · intro hmp
          exact ⟨rfl, hfm.symm⟩

/-- C1 witness: a concrete fragmented payload message round-trips at
max = 5. -/
theorem C1_roundtrip_witness :
    validMessage ⟨TypeMessagePayload, 7, [], 2, 0, [9, 8, 7, 6, 5, 4, 3, 2]⟩ ∧ 5 ≤ 5 ∧
      5 < 2 ^ 32 ∧
      (∃ out, sendBytes 5 ⟨TypeMessagePayload, 7, [], 2, 0, [9, 8, 7, 6, 5, 4, 3, 2]⟩ =
          .ok out ∧
        ∃ m2, ReadNext false 5 (out ++ []) = .ok m2 [] ∧
          m2.type = TypeMessagePayload ∧ m2.streamID = 7 ∧ m2.payload = [] ∧
          m2.data = [9, 8, 7, 6, 5, 4, 3, 2] ∧
          (TypeMessagePayload = TypeMessagePayload → m2.kind = 2 ∧ m2.format = 0)) :=
  ⟨by unfold validMessage; decide, by decide, by decide,
    C1_roundtrip ⟨TypeMessagePayload, 7, [], 2, 0, [9, 8, 7, 6, 5, 4, 3, 2]⟩ 5 []
      (by unfold validMessage; decide) (by decide) (by decide)⟩

/-- C1 counterexample to the claim as stated: with the configured maximum
max = 2^32 (≥ 5), Send succeeds for a valid one-byte auth message, but
decoding its bytes fails with the frame-too-large error because the
decoder compares the declared length against uint32(maxPayload) = 0, so the
round-trip does not yield the message back. -/
theorem C1_counterexample :
    validMessage ⟨TypeAuthBegin, 0, [65], 0, 0, []⟩ ∧ 5 ≤ 2 ^ 32 ∧
      sendBytes (2 ^ 32) ⟨TypeAuthBegin, 0, [65], 0, 0, []⟩ =
        .ok [0x53, 0x42, 0x01, 0x01, 0x00, 0x03, 0, 0, 0, 0, 0, 0, 0, 0, 0, 0, 0, 1, 65] ∧
      ReadNext false (2 ^ 32)
          [0x53, 0x42, 0x01, 0x01, 0x00, 0x03, 0, 0, 0, 0, 0, 0, 0, 0, 0, 0, 0, 1, 65] =
        .fail .frameTooLarge true := by
  refine ⟨by unfold validMessage; decide, by decide, ?_, ?_⟩ <;> rfl

end Claim1

section Claim7

theorem contChunksOK_flags (max : Nat) : ∀ cs, contChunksOK max cs →
    cs.map Prod.fst = List.replicate (cs.length - 1) 0 ++ [flagEnd] := by
  intro cs
  induction cs with
  | nil => intro h; exact absurd h (by simp [contChunksOK])
  | cons c cs ih =>
    intro h
    obtain ⟨fl, p⟩ := c
    cases cs with
    | nil =>
      obtain ⟨h1, h2⟩ : fl = flagEnd ∧ p.length ≤ max := h
      subst h1
      rfl
    | cons c2 cs2 =>
      obtain ⟨h1, h2, h3⟩ : fl = 0 ∧ p.length ≤ max ∧ contChunksOK max (c2 :: cs2) := h
      subst h1
      rw [List.map_cons, ih h3]
      simp [List.replicate_succ]

theorem mkFrames_map_flags (t s : Nat) (cs : List (Nat × List Nat)) :
    (mkFrames t s cs).map Frame.flags = cs.map Prod.fst := by
  simp only [mkFrames, List.map_map]
  exact List.map_congr_left fun a _ => rfl

theorem mkFrames_map_payload (t s : Nat) (cs : List (Nat × List Nat)) :
    (mkFrames t s cs).map Frame.payload = cs.map Prod.snd := by
  simp only [mkFrames, List.map_map]
  exact List.map_congr_left fun a _ => rfl

/-- C7: the frames Send emits obey the flag discipline: if the whole
logical payload (the 4-byte envelope plus data for payload messages, the
raw payload otherwise) fits in one frame of at most the configured
maximum, exactly one frame with flags START|END is emitted; otherwise the
first frame carries START only, every middle frame carries flags 0, the
last carries END only, and the concatenation of the emitted frame payloads
preserves the original byte order. -/
theorem C7_flag_discipline (m : Message) (max : Nat) (hv : validMessage m) (h5 : 5 ≤ max) :
    ∃ fs, sendFrames max m = .ok fs ∧
      ((if m.type = TypeMessagePayload then [m.kind, m.format, 0, 0] ++ m.data
        else m.payload).length ≤ max →
          fs.map Frame.flags = [startEndFlags] ∧
          fs.map Frame.payload =
            [if m.type = TypeMessagePayload then [m.kind, m.format, 0, 0] ++ m.data
             else m.payload]) ∧
      (max < (if m.type = TypeMessagePayload then [m.kind, m.format, 0, 0] ++ m.data
        else m.payload).length →
          2 ≤ fs.length ∧
          fs.map Frame.flags =
            flagStart :: (List.replicate (fs.length - 2) 0 ++ [flagEnd]) ∧
          (fs.map Frame.payload).flatten =
            (if m.type = TypeMessagePayload then [m.kind, m.format, 0, 0] ++ m.data
             else m.payload)) := by
  obtain ⟨hs64, hcase⟩ := hv
  rcases hcase with ⟨ht, hs0, hp, hd⟩ | ⟨ht, hs0, hd⟩ | ⟨ht, hsne, hk, hfm, hp⟩
  · -- ping / pong: always a single empty frame
    refine ⟨[⟨m.type, startEndFlags, 0, []⟩], ?_, ?_, ?_⟩
    · rcases ht with h | h <;> simp [sendFrames, h, hs0, hp, hd, TypePing, TypePong]
    · intro hfit
      rcases ht with h | h <;> simp [h, hs0, hp, TypePing, TypePong, TypeMessagePayload]
    · intro hbig
      rcases ht with h | h <;>
        (rw [h] at hbig; simp [TypePing, TypePong, TypeMessagePayload, hp] at hbig)
  · -- auth stages
    have hnmp : m.type ≠ TypeMessagePayload := by
      rcases ht with h | h | h | h | h <;> rw [h] <;> decide
    by_cases hle : m.payload.length ≤ max
    · refine ⟨[⟨m.type, startEndFlags, 0, m.payload⟩], ?_, ?_, ?_⟩
      · rcases ht with h | h | h | h | h <;>
          simp [sendFrames, sendWithFragmentation, h, hs0, hle, TypePing, TypePong,
            TypeAuthBegin, TypeAuthChallenge, TypeAuthProof, TypeAuthOK, TypeAuthError]
      · intro hfit
        simp [hnmp]
      · intro hbig
        rw [if_neg hnmp] at hbig
        omega
    · have hgt : max < m.payload.length := by omega
      have hm : 0 < max := by omega
      obtain ⟨hsplit, hdne⟩ := fragChunks_true_multi max hm m.payload hgt
      obtain ⟨hOK, hJoin⟩ := fragChunks_false_spec max hm (m.payload.drop max) hdne
      refine ⟨⟨m.type, flagStart, 0, m.payload.take max⟩ ::
        mkFrames m.type 0 (fragChunks max false (m.payload.drop max)), ?_, ?_, ?_⟩
      · rcases ht with h | h | h | h | h <;>
          (simp [sendFrames, sendWithFragmentation, h, hs0, hle, TypePing, TypePong,
            TypeAuthBegin, TypeAuthChallenge, TypeAuthProof, TypeAuthOK, TypeAuthError]
           ; rw [hsplit, mkFrames_cons])
      · intro hfit
        rw [if_neg hnmp] at hfit
        omega
      · intro hbig
        have hcne : fragChunks max false (m.payload.drop max) ≠ [] := by
          intro he
          rw [he] at hOK
          exact absurd hOK (by simp [contChunksOK])
        have hlen1 : 1 ≤ (fragChunks max false (m.payload.drop max)).length :=
          Nat.one_le_iff_ne_zero.mpr (fun h0 => hcne (List.length_eq_zero.mp h0))
        refine ⟨?_, ?_, ?_⟩
        · simp only [List.length_cons, mkFrames, List.length_map]
          omega
        · rw [List.map_cons, mkFrames_map_flags, contChunksOK_flags max _ hOK]
          simp only [List.length_cons, mkFrames, List.length_map]
          try rfl
        · rw [List.map_cons, mkFrames_map_payload, List.flatten_cons, hJoin,
            List.take_append_drop, if_neg hnmp]
  · -- message_payload
    have hkk : ¬ (m.kind ≠ 1 ∧ m.kind ≠ 2 ∧ m.kind ≠ 3) := by
      rcases hk with h | h | h <;> simp [h]
    have hm4 : ¬ (max < 4) := by omega
    by_cases hdle : m.data.length ≤ max - 4
    · have hngt : ¬ (m.data.length > max - 4) := by omega
      refine ⟨[⟨TypeMessagePayload, startEndFlags, m.streamID, [m.kind, 0, 0, 0] ++ m.data⟩],
        ?_, ?_, ?_⟩
      · simp [sendFrames, ht, hsne, hfm, hkk, hm4, hngt, List.drop_length,
          TypePing, TypePong, TypeAuthBegin, TypeAuthChallenge, TypeAuthProof, TypeAuthOK,
          TypeAuthError, TypeMessagePayload]
      · intro hfit
        simp [ht, hfm]
      · intro hbig
        rw [if_pos ht] at hbig
        simp only [List.length_append, List.length_cons, List.length_nil] at hbig
        omega
    · have hdgt : m.data.length > max - 4 := by omega
      have hlen_take : (m.data.take (max - 4)).length = max - 4 := by
        simp [List.length_take]
        omega
      have hrem : m.data.drop (max - 4) ≠ [] := by
        have h0 : 0 < (m.data.drop (max - 4)).length := by
          simp only [List.length_drop]
          omega
        exact List.ne_nil_of_length_pos h0
      have hm : 0 < max := by omega
      obtain ⟨hOK, hJoin⟩ := fragChunks_false_spec max hm (m.data.drop (max - 4)) hrem
      refine ⟨⟨TypeMessagePayload, flagStart, m.streamID,
          [m.kind, 0, 0, 0] ++ m.data.take (max - 4)⟩ ::
        mkFrames TypeMessagePayload m.streamID (fragChunks max false (m.data.drop (max - 4))),
        ?_, ?_, ?_⟩
      · simp [sendFrames, ht, hsne, hfm, hkk, hm4, hdgt, hlen_take, hrem,
          TypePing, TypePong, TypeAuthBegin, TypeAuthChallenge, TypeAuthProof, TypeAuthOK,
          TypeAuthError, TypeMessagePayload]
      · intro hfit
        rw [if_pos ht] at hfit
        simp only [List.length_append, List.length_cons, List.length_nil] at hfit
        omega
      · intro hbig
        have hcne : fragChunks max false (m.data.drop (max - 4)) ≠ [] := by
          intro he
          rw [he] at hOK
          exact absurd hOK (by simp [contChunksOK])
        have hlen1 : 1 ≤ (fragChunks max false (m.data.drop (max - 4))).length :=
          Nat.one_le_iff_ne_zero.mpr (fun h0 => hcne (List.length_eq_zero.mp h0))
        refine ⟨?_, ?_, ?_⟩
        · simp only [List.length_cons, mkFrames, List.length_map]
          omega
        · rw [List.map_cons, mkFrames_map_flags, contChunksOK_flags max _ hOK]
          simp only [List.length_cons, mkFrames, List.length_map]
          try rfl
        · rw [List.map_cons, mkFrames_map_payload, List.flatten_cons, hJoin, if_pos ht,
            hfm, List.append_assoc, List.take_append_drop]

/-- Concrete message used to witness C7: an auth frame whose 7-byte payload
fragments at max = 5. -/
def msgC7 : Message := ⟨TypeAuthBegin, 0, [1, 2, 3, 4, 5, 6, 7], 0, 0, []⟩

/-- C7 witness at a concrete fragmented message. -/
theorem C7_flag_discipline_witness :
    validMessage msgC7 ∧ 5 ≤ 5 ∧
      (∃ fs, sendFrames 5 msgC7 = .ok fs ∧
        ((if msgC7.type = TypeMessagePayload then [msgC7.kind, msgC7.format, 0, 0] ++ msgC7.data
          else msgC7.payload).length ≤ 5 →
            fs.map Frame.flags = [startEndFlags] ∧
            fs.map Frame.payload =
              [if msgC7.type = TypeMessagePayload then
                [msgC7.kind, msgC7.format, 0, 0] ++ msgC7.data
               else msgC7.payload]) ∧
        (5 < (if msgC7.type = TypeMessagePayload then [msgC7.kind, msgC7.format, 0, 0] ++ msgC7.data
          else msgC7.payload).length →
            2 ≤ fs.length ∧
            fs.map Frame.flags =
              flagStart :: (List.replicate (fs.length - 2) 0 ++ [flagEnd]) ∧
            (fs.map Frame.payload).flatten =
              (if msgC7.type = TypeMessagePayload then
                [msgC7.kind, msgC7.format, 0, 0] ++ msgC7.data
               else msgC7.payload))) :=
  ⟨by unfold validMessage msgC7; decide, by decide,
    C7_flag_discipline msgC7 5 (by unfold validMessage msgC7; decide) (by decide)⟩

end Claim7

section Claims456

/-- C4: frame decoding reads exactly the 18-byte header (the error outcome
does not depend on the bytes after the header: rest is universally
quantified), and a header that violates several constraints simultaneously
fails with the first applicable error in the fixed priority order
bad magic, then bad version, then unknown type, then invalid flags (any
bit outside START|END), then frame too large (declared payload length
exceeding the configured maximum, compared as uint32). -/
theorem C4_header_priority (max m0 m1 ver ty f0 f1 s0 s1 s2 s3 s4 s5 s6 s7 l0 l1 l2 l3 : Nat)
    (rest : List Nat) :
    ((decodeFrameFrom max (m0 :: m1 :: ver :: ty :: f0 :: f1 :: s0 :: s1 :: s2 :: s3 :: s4 :: s5
        :: s6 :: s7 :: l0 :: l1 :: l2 :: l3 :: rest) = .error .badMagic) ↔
      (m0 ≠ 0x53 ∨ m1 ≠ 0x42)) ∧
    ((decodeFrameFrom max (m0 :: m1 :: ver :: ty :: f0 :: f1 :: s0 :: s1 :: s2 :: s3 :: s4 :: s5
        :: s6 :: s7 :: l0 :: l1 :: l2 :: l3 :: rest) = .error .badVersion) ↔
      (¬ (m0 ≠ 0x53 ∨ m1 ≠ 0x42) ∧ ver ≠ 0x01)) ∧
    ((decodeFrameFrom max (m0 :: m1 :: ver :: ty :: f0 :: f1 :: s0 :: s1 :: s2 :: s3 :: s4 :: s5
        :: s6 :: s7 :: l0 :: l1 :: l2 :: l3 :: rest) = .error .unknownType) ↔
      (¬ (m0 ≠ 0x53 ∨ m1 ≠ 0x42) ∧ ¬ ver ≠ 0x01 ∧ isKnownType ty = false)) ∧
    ((decodeFrameFrom max (m0 :: m1 :: ver :: ty :: f0 :: f1 :: s0 :: s1 :: s2 :: s3 :: s4 :: s5
        :: s6 :: s7 :: l0 :: l1 :: l2 :: l3 :: rest) = .error .invalidFlags) ↔
      (¬ (m0 ≠ 0x53 ∨ m1 ≠ 0x42) ∧ ¬ ver ≠ 0x01 ∧ isKnownType ty = true ∧
        (f0 * 256 + f1) &&& 0xFFFC ≠ 0)) ∧
    ((decodeFrameFrom max (m0 :: m1 :: ver :: ty :: f0 :: f1 :: s0 :: s1 :: s2 :: s3 :: s4 :: s5
        :: s6 :: s7 :: l0 :: l1 :: l2 :: l3 :: rest) = .error .frameTooLarge) ↔
      (¬ (m0 ≠ 0x53 ∨ m1 ≠ 0x42) ∧ ¬ ver ≠ 0x01 ∧ isKnownType ty = true ∧
        ¬ (f0 * 256 + f1) &&& 0xFFFC ≠ 0 ∧
        ((l0 * 256 + l1) * 256 + l2) * 256 + l3 > max % 2 ^ 32)) := by
  rw [decodeFrameFrom_cons]
  by_cases h1 : (m0 ≠ 0x53 ∨ m1 ≠ 0x42) <;>
    by_cases h2 : (ver ≠ 0x01) <;>
      cases h3 : isKnownType ty <;>
        by_cases h4 : ((f0 * 256 + f1) &&& 0xFFFC ≠ 0) <;>
          by_cases h5 : (((l0 * 256 + l1) * 256 + l2) * 256 + l3 > max % 2 ^ 32) <;>
            simp [h1, h2, h3, h4, h5, ite_eq_iff]



/-- A decodable continuation frame that violates the reassembly rules makes
the loop fail with the fragmentation error and close the connection. -/
theorem readContinuations_violation (cd : Bool) (max t s : Nat) (f2 : Frame)
    (acc rest : List Nat)
    (htyp : isKnownType f2.typ = true) (hfl : f2.flags < 4) (hsid : f2.streamID < 2 ^ 64)
    (hlen : f2.payload.length ≤ max) (hmax : max < 2 ^ 32)
    (hviol : f2.typ ≠ t ∨ f2.streamID ≠ s ∨ f2.flags &&& flagStart ≠ 0 ∨
      (f2.flags ≠ 0 ∧ f2.flags ≠ flagEnd)) :
    readContinuations cd max t s acc (encodeFrame f2 ++ rest) false =
      .error (.fragmentation, true) := by
  have hdec := decode_encodeFrame (f := f2) rest htyp hfl hsid hlen hmax
  rw [readContinuations]
  simp only [Bool.false_eq_true, if_false]
  split
  · next eb heq =>
    rw [readFrame_ok cd hdec] at heq
    exact absurd heq (by simp)
  · next nx rest1 heq =>
    rw [readFrame_ok cd hdec] at heq
    simp only [Except.ok.injEq, Prod.mk.injEq] at heq
    obtain ⟨hnx, hrest⟩ := heq
    subst hnx
    subst hrest
    by_cases hc1 : (f2.typ ≠ t ∨ f2.streamID ≠ s)
    · rw [if_pos hc1]
    · rw [if_neg hc1]
      by_cases hc2 : f2.flags &&& flagStart ≠ 0
      · rw [if_pos hc2]
      · rw [if_neg hc2]
        have hc3 : f2.flags ≠ 0 ∧ f2.flags ≠ flagEnd := by
          rcases hviol with h | h | h | h
          · exact absurd (Or.inl h) hc1
          · exact absurd (Or.inr h) hc1
          · exact absurd h hc2
          · exact h
        rw [if_pos hc3]



/-- C5: on ReadNext, a decodable first frame that lacks the START flag
closes the connection and fails with the fragmentation error (first
conjunct, any context state); and during reassembly — after an auth-stage
opener (second conjunct) or a message_payload opener with a valid envelope
(third conjunct) — a decodable continuation frame whose type or stream id
differs from the opener's, or that has START set, or whose flags are not
in {0, END}, closes the connection and fails with the fragmentation
error. -/
theorem C5_fragmentation :
    (∀ (cd : Bool) (max : Nat) (f : Frame) (rest : List Nat),
      isKnownType f.typ = true → f.flags < 4 → f.flags &&& flagStart = 0 →
      f.streamID < 2 ^ 64 → f.payload.length ≤ max → max < 2 ^ 32 →
      ReadNext cd max (encodeFrame f ++ rest) = .fail .fragmentation true) ∧
    (∀ (max t : Nat) (p1 : List Nat) (f2 : Frame) (rest : List Nat),
      (t = TypeAuthBegin ∨ t = TypeAuthChallenge ∨ t = TypeAuthProof ∨ t = TypeAuthOK ∨
        t = TypeAuthError) →
      p1.length ≤ max → max < 2 ^ 32 →
      isKnownType f2.typ = true → f2.flags < 4 → f2.streamID < 2 ^ 64 →
      f2.payload.length ≤ max →
      (f2.typ ≠ t ∨ f2.streamID ≠ 0 ∨ f2.flags &&& flagStart ≠ 0 ∨
        (f2.flags ≠ 0 ∧ f2.flags ≠ flagEnd)) →
      ReadNext false max (encodeFrame ⟨t, flagStart, 0, p1⟩ ++ (encodeFrame f2 ++ rest)) =
        .fail .fragmentation true) ∧
    (∀ (max sid k : Nat) (d1 : List Nat) (f2 : Frame) (rest : List Nat),
      sid ≠ 0 → sid < 2 ^ 64 → (k = 1 ∨ k = 2 ∨ k = 3) →
      4 + d1.length ≤ max → max < 2 ^ 32 →
      isKnownType f2.typ = true → f2.flags < 4 → f2.streamID < 2 ^ 64 →
      f2.payload.length ≤ max →
      (f2.typ ≠ TypeMessagePayload ∨ f2.streamID ≠ sid ∨ f2.flags &&& flagStart ≠ 0 ∨
        (f2.flags ≠ 0 ∧ f2.flags ≠ flagEnd)) →
      ReadNext false max
          (encodeFrame ⟨TypeMessagePayload, flagStart, sid, [k, 0, 0, 0] ++ d1⟩ ++
            (encodeFrame f2 ++ rest)) =
        .fail .fragmentation true) := by
  refine ⟨?_, ?_, ?_⟩
  · intro cd max f rest htyp hfl hstart hsid hlen hmax
    have hdec := decode_encodeFrame (f := f) rest htyp hfl hsid hlen hmax
    unfold ReadNext
    rw [readFrame_ok cd hdec]
    simp [hstart]
  · intro max t p1 f2 rest ht hlen1 hmax htyp2 hfl2 hsid2 hlen2 hviol
    have htk : isKnownType t = true := by
      rcases ht with h | h | h | h | h <;> subst h <;> decide
    have hnp : ¬ (t = TypePing ∨ t = TypePong) := by
      rcases ht with h | h | h | h | h <;> subst h <;> decide
    have hnmp : t ≠ TypeMessagePayload := by
      rcases ht with h | h | h | h | h <;> subst h <;> decide
    have hdec := decode_encodeFrame (f := ⟨t, flagStart, 0, p1⟩) (encodeFrame f2 ++ rest) htk
      (by simp [flagStart]) (by simp) (by simpa using hlen1) hmax
    have hviolLoop := readContinuations_violation false max t 0 f2 p1 rest htyp2 hfl2
      hsid2 hlen2 hmax hviol
    unfold ReadNext
    rw [readFrame_ok false hdec]
    simp [flagStart, flagEnd, hnp, hnmp, hviolLoop]
  · intro max sid k d1 f2 rest hsid hs64 hk hlen1 hmax htyp2 hfl2 hsid2 hlen2 hviol
    have hknown : isKnownType TypeMessagePayload = true := by decide
    have hdec := decode_encodeFrame
      (f := ⟨TypeMessagePayload, flagStart, sid, [k, 0, 0, 0] ++ d1⟩)
      (encodeFrame f2 ++ rest) (by simpa using hknown) (by simp [flagStart])
      (by simpa using hs64)
      (by simp only [List.length_append, List.length_cons, List.length_nil]; omega) hmax
    have hne : ¬ (TypeMessagePayload = TypePing ∨ TypeMessagePayload = TypePong) := by decide
    have hna : ¬ (TypeMessagePayload = TypeAuthBegin ∨ TypeMessagePayload = TypeAuthChallenge ∨
        TypeMessagePayload = TypeAuthProof ∨ TypeMessagePayload = TypeAuthOK ∨
        TypeMessagePayload = TypeAuthError) := by decide
    have hg0 : (([k, 0, 0, 0] ++ d1) : List Nat).getD 0 0 = k := rfl
    have hg1 : (([k, 0, 0, 0] ++ d1) : List Nat).getD 1 0 = 0 := rfl
    have hg2 : (([k, 0, 0, 0] ++ d1) : List Nat).getD 2 0 = 0 := rfl
    have hg3 : (([k, 0, 0, 0] ++ d1) : List Nat).getD 3 0 = 0 := rfl
    have hd4 : (([k, 0, 0, 0] ++ d1) : List Nat).drop 4 = d1 := rfl
    have hkk : ¬ (k ≠ 1 ∧ k ≠ 2 ∧ k ≠ 3) := by
      rcases hk with h | h | h <;> subst h <;> decide
    have hlen4 : ¬ (([k, 0, 0, 0] ++ d1) : List Nat).length < 4 := by
      simp only [List.length_append, List.length_cons, List.length_nil]
      omega
    have hviolLoop := readContinuations_violation false max TypeMessagePayload sid f2 d1 rest
      htyp2 hfl2 hsid2 hlen2 hmax hviol
    unfold ReadNext
    rw [readFrame_ok false hdec]
    simp [flagStart, flagEnd, hne, hna, hsid, hg0, hg1, hg2, hg3, hd4, hkk, hlen4, hviolLoop]



/-- C6: for a received message_payload (0x10) message whose decodable first
frame carries START, if the first fragment's payload is shorter than 4
bytes, or the envelope's reserved bytes are non-zero, or its format byte is
not 0 (opaque bytes), or its kind byte is not in {1, 2, 3}, then ReadNext
closes the connection and fails with the envelope error. -/
theorem C6_envelope (max sid fl : Nat) (p rest : List Nat)
    (hfl : fl = flagStart ∨ fl = startEndFlags) (hsid : sid ≠ 0) (hs64 : sid < 2 ^ 64)
    (hlen : p.length ≤ max) (hmax : max < 2 ^ 32)
    (hviol : p.length < 4 ∨ p.getD 2 0 * 256 + p.getD 3 0 ≠ 0 ∨ p.getD 1 0 ≠ 0 ∨
      (p.getD 0 0 ≠ 1 ∧ p.getD 0 0 ≠ 2 ∧ p.getD 0 0 ≠ 3)) :
    ReadNext false max (encodeFrame ⟨TypeMessagePayload, fl, sid, p⟩ ++ rest) =
      .fail .envelope true := by
  have hfl4 : fl < 4 := by rcases hfl with h | h <;> subst h <;> decide
  have hstart : ¬ (fl &&& flagStart = 0) := by rcases hfl with h | h <;> subst h <;> decide
  have hknown : isKnownType TypeMessagePayload = true := by decide
  have hdec := decode_encodeFrame (f := ⟨TypeMessagePayload, fl, sid, p⟩) rest
    (by simpa using hknown) (by simpa using hfl4) (by simpa using hs64)
    (by simpa using hlen) hmax
  have hne : ¬ (TypeMessagePayload = TypePing ∨ TypeMessagePayload = TypePong) := by decide
  have hna : ¬ (TypeMessagePayload = TypeAuthBegin ∨ TypeMessagePayload = TypeAuthChallenge ∨
      TypeMessagePayload = TypeAuthProof ∨ TypeMessagePayload = TypeAuthOK ∨
      TypeMessagePayload = TypeAuthError) := by decide
  unfold ReadNext
  rw [readFrame_ok false hdec]
  by_cases hv1 : p.length < 4
  · simp [hstart, hne, hna, hsid, hv1]
  · by_cases hv2 : p.getD 2 0 = 0 ∧ p.getD 3 0 = 0
    · obtain ⟨h2, h3⟩ := hv2
      by_cases hv3 : p.getD 1 0 = 0
      · have hv4 : p.getD 0 0 ≠ 1 ∧ p.getD 0 0 ≠ 2 ∧ p.getD 0 0 ≠ 3 := by
          rcases hviol with h | h | h | h
          · exact absurd h hv1
          · rw [h2, h3] at h
            exact absurd rfl h
          · exact absurd hv3 h
          · exact h
        simp only [List.getD_eq_getElem?_getD] at h2 h3 hv3 hv4
        simp [hstart, hne, hna, hsid, hv1, h2, h3, hv3, hv4]
      · simp only [List.getD_eq_getElem?_getD] at h2 h3 hv3
        simp [hstart, hne, hna, hsid, hv1, h2, h3, hv3]
    · simp only [List.getD_eq_getElem?_getD, not_and] at hv2
      simp [hstart, hne, hna, hsid, hv1]
      intro ha hb
      exact absurd hb (hv2 ha)

/-- C5 witness: a concrete START-less first frame, a concrete wrong-type
continuation after an auth opener, and a concrete START-carrying
continuation after a payload opener, all failing as fragmentation errors
with the connection closed. -/
theorem C5_fragmentation_witness :
    ((⟨TypeAuthBegin, flagEnd, 0, []⟩ : Frame).flags &&& flagStart = 0 ∧
      ReadNext false 100 (encodeFrame ⟨TypeAuthBegin, flagEnd, 0, []⟩ ++ []) =
        .fail .fragmentation true) ∧
    ((⟨TypeAuthChallenge, flagEnd, 0, []⟩ : Frame).typ ≠ TypeAuthBegin ∧
      ReadNext false 100 (encodeFrame ⟨TypeAuthBegin, flagStart, 0, [7]⟩ ++
        (encodeFrame ⟨TypeAuthChallenge, flagEnd, 0, []⟩ ++ [])) =
        .fail .fragmentation true) ∧
    ((⟨TypeMessagePayload, flagStart, 5, []⟩ : Frame).flags &&& flagStart ≠ 0 ∧
      ReadNext false 100 (encodeFrame ⟨TypeMessagePayload, flagStart, 5, [1, 0, 0, 0]⟩ ++
        (encodeFrame ⟨TypeMessagePayload, flagStart, 5, []⟩ ++ [])) =
        .fail .fragmentation true) :=
  ⟨⟨by decide,
    C5_fragmentation.1 false 100 ⟨TypeAuthBegin, flagEnd, 0, []⟩ [] (by decide) (by decide)
      (by decide) (by decide) (by decide) (by decide)⟩,
   ⟨by decide,
    C5_fragmentation.2.1 100 TypeAuthBegin [7] ⟨TypeAuthChallenge, flagEnd, 0, []⟩ []
      (Or.inl rfl) (by decide) (by decide) (by decide) (by decide) (by decide) (by decide)
      (Or.inl (by decide))⟩,
   ⟨by decide,
    C5_fragmentation.2.2 100 5 1 [] ⟨TypeMessagePayload, flagStart, 5, []⟩ []
      (by decide) (by decide) (Or.inl rfl) (by decide) (by decide) (by decide) (by decide)
      (by decide) (by decide) (Or.inr (Or.inr (Or.inl (by decide))))⟩⟩

/-- C6 witness: a single payload frame whose envelope kind byte is 9
(not a defined kind) is rejected as an envelope error with the connection
closed. -/
theorem C6_envelope_witness :
    ([9, 0, 0, 0] : List Nat).getD 0 0 ≠ 1 ∧
      ReadNext false 100 (encodeFrame ⟨TypeMessagePayload, startEndFlags, 5, [9, 0, 0, 0]⟩ ++ []) =
        .fail .envelope true :=
  ⟨by decide,
    C6_envelope 100 5 startEndFlags [9, 0, 0, 0] [] (Or.inr rfl) (by decide) (by decide)
      (by decide) (by decide) (Or.inr (Or.inr (Or.inr (by decide))))⟩

end Claims456

section Claims3and10

theorem writeChunk_err {cap n : Nat} {e : Err} (h : writeChunk cap n = .error e) :
    e = .ioWrite := by
  unfold writeChunk at h
  by_cases hc : n ≤ cap
  · rw [if_pos hc] at h
    exact absurd h (by simp)
  · rw [if_neg hc] at h
    injection h with h1
    exact h1.symm

theorem encodeFrameToIO_err {cap : Nat} {f : Frame} {e : Err}
    (h : encodeFrameToIO cap f = .error e) : e = .ioWrite := by
  unfold encodeFrameToIO at h
  split at h
  · next e0 heq =>
    injection h with h1
    exact h1 ▸ writeChunk_err heq
  · next c1 heq =>
    by_cases hp : f.payload = []
    · rw [if_pos hp] at h
      exact absurd h (by simp)
    · rw [if_neg hp] at h
      exact writeChunk_err h

theorem writeFrames_err : ∀ (fs : List Frame) (cap : Nat) (e : Err),
    writeFrames cap fs = .error e → e = .ioWrite := by
  intro fs
  induction fs with
  | nil => intro cap e h; exact absurd h (by simp [writeFrames])
  | cons f fs ih =>
    intro cap e h
    unfold writeFrames at h
    split at h
    · next e0 heq =>
      injection h with h1
      exact h1 ▸ encodeFrameToIO_err heq
    · next c1 heq => exact ih c1 e h

theorem sendFrames_err_no_ctx : ∀ (max : Nat) (msg : Message) (e : Err),
    sendFrames max msg = .error e → e ≠ .ctxCanceled := by
  intro max msg e h hc
  subst hc
  unfold sendFrames at h
  split_ifs at h
  all_goals try simp at h
  all_goals
    by_cases h4 : max < 4
  · rw [if_pos h4] at h
    simp at h
  · rw [if_neg h4] at h
    revert h
    split <;> (first | (split <;> simp) | simp)

/-- C3 (amended): on ReadNext, if a blocking transport read fails while
the context is already done, the context's error is returned (with the
connection left open at that point); otherwise the original decode or I/O
error is returned unchanged (with the protocol-error close flag).  Send,
unlike ReadNext, never substitutes the context's error: its result is never
the cancellation cause, whatever the context's state (the original claim
asserted the substitution for Send too; see the counterexample). -/
theorem C3_cancellation :
    (∀ (max : Nat) (input : List Nat) (e : Err),
      decodeFrameFrom max input = .error e →
        ReadNext true max input = .fail .ctxCanceled false ∧
        ReadNext false max input = .fail e (isProtocolErr e)) ∧
    (∀ (ctxDone : Bool) (cap max : Nat) (msg : Message),
      sendIO ctxDone cap max msg ≠ .error .ctxCanceled) := by
  constructor
  · intro max input e hdec
    constructor
    · unfold ReadNext readFrame
      rw [hdec]
      simp
    · unfold ReadNext readFrame
      rw [hdec]
      simp
  · intro ctxDone cap max msg h
    unfold sendIO at h
    split at h
    · next e0 heq =>
      injection h with h1
      exact absurd (h1 ▸ heq) (fun hx => sendFrames_err_no_ctx max msg _ hx rfl)
    · next fs heq =>
      have := writeFrames_err fs cap _ h
      exact absurd this (by decide)

/-- C3 counterexample to the claim as stated: a write failure during Send
with the context already signalled surfaces the transport write error, not
the cancellation cause. -/
theorem C3_cancellation_counterexample :
    sendIO true 0 100 ⟨TypePing, 0, [], 0, 0, []⟩ = .error .ioWrite ∧
      Err.ioWrite ≠ Err.ctxCanceled :=
  ⟨rfl, by decide⟩

/-- C3 witness: a bad-magic read error is replaced by the context error
exactly when the context is already done, and Send's result is never the
context error. -/
theorem C3_cancellation_witness :
    decodeFrameFrom 100 (List.replicate 18 1) = .error .badMagic ∧
      (ReadNext true 100 (List.replicate 18 1) = .fail .ctxCanceled false ∧
        ReadNext false 100 (List.replicate 18 1) = .fail .badMagic (isProtocolErr .badMagic)) ∧
      sendIO true 3 100 ⟨TypePong, 0, [], 0, 0, []⟩ ≠ .error .ctxCanceled :=
  ⟨rfl, C3_cancellation.1 100 (List.replicate 18 1) .badMagic rfl,
    C3_cancellation.2 true 3 100 ⟨TypePong, 0, [], 0, 0, []⟩⟩

/-- C10: if the context passed to ReadNext is already done at the instant
the first frame read fails, ReadNext returns the context's error and leaves
the connection open, even when the underlying failure is a protocol-class
decode error that would otherwise close the connection. -/
theorem C10_ctx_over_protocol (max : Nat) (input : List Nat) (e : Err)
    (hdec : decodeFrameFrom max input = .error e) (hprot : isProtocolErr e = true) :
    ReadNext true max input = .fail .ctxCanceled false := by
  unfold ReadNext readFrame
  rw [hdec]
  simp

/-- C10 witness: a bad-magic stream read with the context already done. -/
theorem C10_ctx_over_protocol_witness :
    decodeFrameFrom 64 (List.replicate 20 9) = .error .badMagic ∧
      isProtocolErr .badMagic = true ∧
      ReadNext true 64 (List.replicate 20 9) = .fail .ctxCanceled false :=
  ⟨rfl, rfl, C10_ctx_over_protocol 64 (List.replicate 20 9) .badMagic rfl rfl⟩

end Claims3and10


section Claims2and8

/-- C2 (amended): after the challenge has been sent, the server requires
the received auth_proof's agent_id, challenge_id, nonce and issued_at_ms to
exactly equal the challenge's bound fields; a mismatching agent_id fails
the handshake with code protocol_error, while any mismatch among
challenge_id, nonce or issued_at_ms (with agent_id matching) fails it with
code replayed_challenge — in every such failure the server best-effort
sends auth_error with that code and closes the connection. -/
theorem C2_challenge_binding (agentID : String) (ch : AuthChallengeMsg) (proof : AuthProofMsg)
    (now2 : Int) (sigDecodeOK sigValid : Bool) :
    (proof.agentID ≠ agentID →
      processProof agentID ch proof now2 sigDecodeOK sigValid = failAuth "protocol_error") ∧
    (proof.agentID = agentID →
      (proof.challengeID ≠ ch.challengeID ∨ proof.nonce ≠ ch.nonce ∨
        proof.issuedAtMS ≠ ch.issuedAtMS) →
      processProof agentID ch proof now2 sigDecodeOK sigValid =
        failAuth "replayed_challenge") ∧
    (∀ code, (failAuth code).sentAuthError = some code ∧ (failAuth code).closedConn = true ∧
      (failAuth code).result = .failed code) := by
  refine ⟨?_, ?_, ?_⟩
  · intro h
    unfold processProof
    rw [if_pos h]
  · intro h1 h2
    unfold processProof
    rw [if_neg (by simp [h1]), if_pos h2]
  · intro code
    exact ⟨rfl, rfl, rfl⟩

/-- C2 counterexample to the claim as stated: a proof whose agent_id
differs from the challenge's bound agent identity (all other bound fields
matching) is rejected with code protocol_error, not replayed_challenge. -/
theorem C2_challenge_binding_counterexample :
    (AuthProofMsg.mk "b" "c" "n" 100 "s").agentID ≠ "a" ∧
      processProof "a" (mintChallenge "c" "n" 100 30000)
        (AuthProofMsg.mk "b" "c" "n" 100 "s") 100 true true = failAuth "protocol_error" ∧
      failAuth "protocol_error" ≠ failAuth "replayed_challenge" := by
  refine ⟨by decide, rfl, by decide⟩

/-- C2 witness: a proof with a mismatching nonce is rejected with code
replayed_challenge, auth_error sent and connection closed. -/
theorem C2_challenge_binding_witness :
    ((AuthProofMsg.mk "a" "c" "bad" 100 "s").agentID = "a" ∧
      (AuthProofMsg.mk "a" "c" "bad" 100 "s").nonce ≠
        (mintChallenge "c" "n" 100 30000).nonce) ∧
      processProof "a" (mintChallenge "c" "n" 100 30000)
        (AuthProofMsg.mk "a" "c" "bad" 100 "s") 100 true true = failAuth "replayed_challenge" :=
  ⟨⟨by decide, by decide⟩,
    (C2_challenge_binding "a" (mintChallenge "c" "n" 100 30000)
      (AuthProofMsg.mk "a" "c" "bad" 100 "s") 100 true true).2.1 (by decide)
      (Or.inr (Or.inl (by decide)))⟩

/-- C8: the server mints the challenge with
expires_at_ms = issued_at_ms + challenge_ttl_ms; for an auth_proof whose
bound fields match, it fails with expired_challenge exactly when
now_ms() > expires_at_ms at the freshness check, and it accepts only when
now_ms() ≤ expires_at_ms. -/
theorem C8_challenge_freshness (cid nonce : String) (iss ttl : Int) (agentID : String)
    (proof : AuthProofMsg) (now2 : Int) (sigDecodeOK sigValid : Bool) :
    (mintChallenge cid nonce iss ttl).expiresAtMS = iss + ttl ∧
    (proof.agentID = agentID → proof.challengeID = cid → proof.nonce = nonce →
      proof.issuedAtMS = iss → now2 > iss + ttl →
      processProof agentID (mintChallenge cid nonce iss ttl) proof now2 sigDecodeOK sigValid =
        failAuth "expired_challenge") ∧
    ((processProof agentID (mintChallenge cid nonce iss ttl) proof now2 sigDecodeOK
        sigValid).result = .accepted →
      now2 ≤ (mintChallenge cid nonce iss ttl).expiresAtMS) := by
  refine ⟨rfl, ?_, ?_⟩
  · intro h1 h2 h3 h4 hgt
    unfold processProof
    rw [if_neg (by simp [h1]), if_neg (by simp [mintChallenge, h2, h3, h4]),
      if_pos (by simpa [mintChallenge] using hgt)]
  · unfold processProof
    split_ifs with h1 h2 h3 h4 h5 <;> simp [failAuth] <;> omega

/-- C8 witness: a matching proof is rejected as expired one millisecond
after the deadline, and the minted expiry is issued + ttl. -/
theorem C8_challenge_freshness_witness :
    (mintChallenge "c" "n" 100 30000).expiresAtMS = 100 + 30000 ∧
      ((AuthProofMsg.mk "a" "c" "n" 100 "s").agentID = "a" ∧ (30101 : Int) > 100 + 30000 →
        processProof "a" (mintChallenge "c" "n" 100 30000)
          (AuthProofMsg.mk "a" "c" "n" 100 "s") 30101 true true =
          failAuth "expired_challenge") :=
  ⟨(C8_challenge_freshness "c" "n" 100 30000 "a" (AuthProofMsg.mk "a" "c" "n" 100 "s")
      30101 true true).1,
   fun _ => (C8_challenge_freshness "c" "n" 100 30000 "a"
      (AuthProofMsg.mk "a" "c" "n" 100 "s") 30101 true true).2.1 (by decide) (by decide)
      (by decide) (by decide) (by decide)⟩

end Claims2and8


section Claim9

theorem hexDigit_mem (n : Nat) : hexDigit n ∈ hexTable := by
  unfold hexDigit
  by_cases h : n < hexTable.length
  · rw [List.getD_eq_getElem?_getD, List.getElem?_eq_getElem h]
    simp only [Option.getD_some]
    exact List.getElem_mem h
  · rw [List.getD_eq_getElem?_getD, List.getElem?_eq_none (by omega)]
    simp only [Option.getD_none]
    decide

theorem hexEncode_chars (bs : List Nat) : ∀ c ∈ (hexEncode bs).data, c ∈ hexTable := by
  intro c hc
  have hdata : (hexEncode bs).data =
      ((bs.map (fun b => [hexDigit (b / 16), hexDigit (b % 16)])).flatten) := rfl
  rw [hdata, List.mem_flatten] at hc
  obtain ⟨l, hl, hcl⟩ := hc
  obtain ⟨b, hb, rfl⟩ := List.mem_map.mp hl
  simp only [List.mem_cons, List.not_mem_nil, or_false] at hcl
  rcases hcl with h | h
  · exact h ▸ hexDigit_mem (b / 16)
  · exact h ▸ hexDigit_mem (b % 16)

/-- C9: for every 32-byte input, agentIDFromPublicKey returns the
hexadecimal encoding of the SHA-256 digest of the raw key bytes, and every
character of that encoding is a lowercase hex digit (drawn from the
lowercase table 0-9a-f); an input of any other length yields an error.
agentIDFromPublicKey is a pure function of the bytes, hence stable across
runs. -/
theorem C9_agent_identity (pub : List Nat) :
    (pub.length = 32 →
      agentIDFromPublicKey pub = .ok (hexEncode (sha256 pub)) ∧
      ∀ c ∈ (hexEncode (sha256 pub)).data, c ∈ hexTable) ∧
    (pub.length ≠ 32 →
      agentIDFromPublicKey pub = .error ("invalid public key length " ++ toString pub.length)) := by
  constructor
  · intro h32
    refine ⟨?_, hexEncode_chars (sha256 pub)⟩
    unfold agentIDFromPublicKey
    rw [if_neg (by omega)]
  · intro hne
    unfold agentIDFromPublicKey
    rw [if_pos hne]

/-- C9 witness: the all-zero 32-byte key maps to the hex digest, and a
31-byte input is rejected. -/
theorem C9_agent_identity_witness :
    (List.replicate 32 0).length = 32 ∧
      agentIDFromPublicKey (List.replicate 32 0) =
        .ok (hexEncode (sha256 (List.replicate 32 0))) ∧
      (List.replicate 31 0).length ≠ 32 ∧
      agentIDFromPublicKey (List.replicate 31 0) =
        .error ("invalid public key length " ++ toString (List.replicate 31 0).length) :=
  ⟨by decide, ((C9_agent_identity (List.replicate 32 0)).1 (by decide)).1,
    by decide, (C9_agent_identity (List.replicate 31 0)).2 (by decide)⟩

end Claim9

end Switchboard